import Mathlib

/-!
Verification of the SlidR.Device host-link protocol engine
(`src/SlidR.Device/src/Communication.{h,cpp}`).

The packet codec (`Communication::update`, `Communication::send_packet`,
`Communication::calculate_checksum`) is embedded as pure functions over a
receive-frame state; the file-transfer engine (`handle_file_transfer` and the
functions it calls) is embedded as a state machine whose storage-collaborator
calls (LittleFS) are supplied as explicit success/failure results, and whose
FreeRTOS tasks and binary semaphores are represented by boolean fields.
Machine integers are Nat with explicit bounds/truncation where overflow
matters; bytes coming from `Serial.read()`/`uint8_t` carry `< 256` hypotheses.
-/

namespace SlidR

/-- Error codes surfaced via ERROR packets. Modelled from the spec:
`ProtocolConstants.h` is not under `src/`; the spec (§6) lists the codes and
states their numeric identity is an implementation detail. -/
inductive ErrorCode
  | BUFFER_OVERFLOW
  | CHECKSUM_ERROR
  | INVALID_DATA
  | INVALID_COMMAND
  | TRANSFER_IN_PROGRESS
  | FILE_ERROR
  | TRANSFER_TIMEOUT
deriving DecidableEq, Repr

/-- `MAX_PACKET_SIZE` from Communication.h. -/
def MAX_PACKET_SIZE : Nat := 4096

/-- `TRANSFER_SEND_MAX_CHUNK_SIZE` from Communication.h. -/
def TRANSFER_SEND_MAX_CHUNK_SIZE : Nat := 512

/-- `PACKET_TIMEOUT_MS` from Communication.h. -/
def PACKET_TIMEOUT_MS : Nat := 1000

/-- A decoded packet at the codec level: the raw command byte
(`_rx_buffer[0]`) together with the payload bytes. -/
structure RawPacket where
  command : Nat
  data : List Nat
deriving DecidableEq, Repr

/-- Observable outputs of the receive path: `send_log` (message text not
tracked), `send_err`, and a fully validated packet handed to dispatch. -/
inductive RxEvent
  | log
  | err (code : ErrorCode)
  | packet (p : RawPacket)
deriving DecidableEq, Repr

/-- The codec's mutable receive state from Communication.h.  `buffer` holds
the first `_rx_index` cells of `_rx_buffer`, so `_rx_index = buffer.length`
(bytes are written sequentially at `_rx_buffer[_rx_index++]`). -/
structure RxState where
  buffer : List Nat
  inPacket : Bool
  lastInDataTime : Nat
  lastInPacketTime : Nat
  expectedSize : Nat
deriving DecidableEq, Repr

/-- The state after construction. -/
def initRxState : RxState :=
  { buffer := [], inPacket := false, lastInDataTime := 0,
    lastInPacketTime := 0, expectedSize := 0 }

/-- `Communication::calculate_checksum`: XOR-fold of a byte span.  `uint8_t`
XOR agrees with `Nat.xor` because XOR of values `< 256` stays `< 256`. -/
def calculate_checksum (data : List Nat) : Nat :=
  data.foldl (fun c b => c ^^^ b) 0

/-- The frame-completion check at the end of each loop iteration of
`Communication::update` (lines 49-70): when `_rx_index == _expected_size + 4`,
verify the trailing checksum byte and either emit the packet or a checksum
error, and in both cases leave the frame (`_in_packet = false; _rx_index = 0`). -/
def completionCheck (now : Nat) (st : RxState) : RxState × List RxEvent :=
  if 3 ≤ st.buffer.length ∧ st.buffer.length = st.expectedSize + 4 then
    let recv := st.buffer.getD (st.buffer.length - 1) 0
    let calcd := calculate_checksum (st.buffer.take (st.buffer.length - 1))
    if recv = calcd then
      ({ st with inPacket := false, buffer := [], lastInPacketTime := now },
       [RxEvent.packet { command := st.buffer.getD 0 0,
                         data := (st.buffer.drop 3).take st.expectedSize }])
    else
      ({ st with inPacket := false, buffer := [] },
       [RxEvent.log, RxEvent.err ErrorCode.CHECKSUM_ERROR])
  else (st, [])

/-- One iteration of the `while (Serial.available())` loop of
`Communication::update` for one received byte `b` at time `now`, with start
marker `sb` (`START_BYTE` lives in the absent `ProtocolConstants.h`, so it is
a parameter). -/
def processByte (sb now : Nat) (st : RxState) (b : Nat) : RxState × List RxEvent :=
  if st.inPacket = false ∧ b = sb then
    ({ st with buffer := [], inPacket := true, lastInDataTime := now }, [])
  else if st.inPacket = true then
    let st1 := { st with buffer := st.buffer ++ [b], lastInDataTime := now }
    if st1.buffer.length = 3 then
      let expected := st1.buffer.getD 1 0 ||| (st1.buffer.getD 2 0 <<< 8)
      let st2 := { st1 with expectedSize := expected }
      if MAX_PACKET_SIZE - 4 < expected then
        ({ st2 with inPacket := false },
         [RxEvent.log, RxEvent.err ErrorCode.BUFFER_OVERFLOW])
      else
        completionCheck now st2
    else
      completionCheck now st1
  else (st, [])

/-- Folding `processByte` over the available bytes, accumulating events. -/
def processBytes (sb now : Nat) (st : RxState) (bytes : List Nat) : RxState × List RxEvent :=
  match bytes with
  | [] => (st, [])
  | b :: rest =>
    ((processBytes sb now (processByte sb now st b).1 rest).1,
     (processByte sb now st b).2 ++ (processBytes sb now (processByte sb now st b).1 rest).2)

/-- `millis() - _last_in_data_time` on `uint32_t` timestamps. -/
def elapsed32 (now last : Nat) : Nat := (now + 2 ^ 32 - last) % 2 ^ 32

/-- The packet-timeout check at the head of `Communication::update`
(lines 19-23): an active frame with no byte for more than `PACKET_TIMEOUT_MS`
is discarded with a log message (no ERROR packet is sent there). -/
def checkTimeout (now : Nat) (st : RxState) : RxState × List RxEvent :=
  if st.inPacket = true ∧ PACKET_TIMEOUT_MS < elapsed32 now st.lastInDataTime then
    ({ st with inPacket := false, buffer := [] }, [RxEvent.log])
  else (st, [])

/-- `Communication::update`: timeout check, then one `processByte` per
available input byte. -/
def update (sb now : Nat) (st : RxState) (bytes : List Nat) : RxState × List RxEvent :=
  ((processBytes sb now (checkTimeout now st).1 bytes).1,
   (checkTimeout now st).2 ++ (processBytes sb now (checkTimeout now st).1 bytes).2)

/-- `Communication::send_packet`: the emitted byte sequence for a command
byte and payload.  `size` is the `uint16_t` payload length; the checksum is
the XOR of command, both length bytes and every payload byte. -/
def send_packet (sb command : Nat) (data : List Nat) : List Nat :=
  let size := data.length
  let lo := size &&& 0xFF
  let hi := (size >>> 8) &&& 0xFF
  let checksum := data.foldl (fun c b => c ^^^ b) ((command ^^^ lo) ^^^ hi)
  sb :: command :: lo :: hi :: (data ++ [checksum])

/-- Receive-state invariant: while a frame is active the buffer stays within
the declared frame size (`expected + 4` bytes total, reset on completion), so
`_rx_index` never reaches `MAX_PACKET_SIZE` and every write
`_rx_buffer[_rx_index++] = byte` is in bounds. -/
def RxInv (st : RxState) : Prop :=
  (st.inPacket = true →
    (st.buffer.length < 3 ∨
      (st.expectedSize ≤ MAX_PACKET_SIZE - 4 ∧ st.buffer.length ≤ st.expectedSize + 3)))
  ∧ st.buffer.length < MAX_PACKET_SIZE

/-! ## Transfer engine

`Communication::handle_file_transfer` and the functions it calls.  The
dispatch layer works on `Command` values (`static_cast<Command>(_rx_buffer[0])`);
the enumeration itself is in the absent `ProtocolConstants.h`, so its
constructors are modelled from the spec's command table (§6), with `OTHER`
standing for every non-transfer command byte.  LittleFS results are supplied
explicitly; FreeRTOS task handles and binary semaphores are booleans. -/

/-- Protocol verbs. Modelled from the spec: `ProtocolConstants.h` is not under
`src/`; the spec fixes the command set and says numeric identity is an
implementation detail. -/
inductive Command
  | ACK
  | ERROR_CMD
  | LOG_MESSAGE
  | UPLOAD_IMAGE_START
  | UPLOAD_IMAGE_DATA
  | UPLOAD_IMAGE_END
  | DOWNLOAD_IMAGE_START
  | DOWNLOAD_IMAGE_DATA
  | DOWNLOAD_IMAGE_END
  | OTHER (code : Nat)
deriving DecidableEq, Repr

/-- `Communication::packet_t`: a decoded packet at the dispatch level. -/
structure packet_t where
  command : Command
  data : List Nat
deriving DecidableEq, Repr

/-- The value of `Communication::_file`: no open handle, the staging write
handle (`LittleFS.open(UPLOAD_TEMP_PATH, "w")`), or a read handle on a source
asset (`LittleFS.open(path, "r")`). -/
inductive FileHandle
  | writeTemp
  | readAsset (path : String)
deriving DecidableEq, Repr

/-- The transfer-engine state held by the `Communication` object.
`wdHandle` is `_transfer_watchdog_task_handle != nullptr`; `wdTaskAlive` is
whether the watchdog task loop is still running (the two can diverge: the
task's timeout branch `break`s and self-deletes without clearing the handle).
`wdResetSem`/`ackSem` are the binary semaphores `_transfer_watchdog_reset` and
`_transfer_waiting_for_ack`.  `senderActive` is whether the "Send Image Task"
has been created and has not finished.  `tempExists` tracks the staging file
at `UPLOAD_TEMP_PATH`. -/
structure CommState where
  wdHandle : Bool
  wdTaskAlive : Bool
  wdResetSem : Bool
  ackSem : Bool
  senderActive : Bool
  file : Option FileHandle
  tempExists : Bool
  upload_path : String
  upload_bytes_received : Nat
  upload_total_size : Nat
deriving DecidableEq, Repr

/-- State after the constructor: handles null, semaphores empty. -/
def initCommState : CommState :=
  { wdHandle := false, wdTaskAlive := false, wdResetSem := false,
    ackSem := false, senderActive := false, file := none, tempExists := false,
    upload_path := "", upload_bytes_received := 0, upload_total_size := 0 }

/-- `Communication::transfer_in_progress`:
`_transfer_watchdog_task_handle != nullptr`. -/
def transfer_in_progress (st : CommState) : Bool := st.wdHandle

/-- Outputs observable from the transfer engine: serialized packets,
`send_err`, `send_log` (text untracked), and the `on_file_received`
callback. -/
inductive Out
  | sendPacket (cmd : Command) (data : List Nat)
  | err (code : ErrorCode)
  | log
  | notifyFileReceived (path : String)
deriving DecidableEq, Repr

/-- Results of the LittleFS calls a `handle_file_transfer` invocation may
make, supplied by the storage collaborator: success of `LittleFS.open`, the
return value of `_file.write`, and the results of the
exists/remove/mkdir/rename steps of `finish_file_transfer`. -/
structure FSio where
  openOk : Bool
  written : Nat
  existsTarget : Bool
  removeOk : Bool
  parentsOk : Bool
  renameOk : Bool
deriving DecidableEq, Repr

/-- `Segment::get_image_path` (Segment.h line 30). -/
def get_image_path (index : Nat) : String :=
  "/images/img-" ++ toString index ++ ".bin"

/-- `Communication::start_transfer_watchdog`: gives the kick semaphore and
creates the watchdog task, storing its handle. -/
def start_transfer_watchdog (st : CommState) : CommState :=
  { st with wdResetSem := true, wdHandle := true, wdTaskAlive := true }

/-- `Communication::stop_transfer_watchdog`: if the handle is non-null,
deletes the task and nulls the handle. -/
def stop_transfer_watchdog (st : CommState) : CommState :=
  if st.wdHandle then { st with wdTaskAlive := false, wdHandle := false } else st

/-- `Communication::cancel_transfer`: closes any open handle and removes the
staging file, then clears `_upload_path`.  It does not touch the watchdog. -/
def cancel_transfer (st : CommState) : CommState :=
  match st.file with
  | some _ => { st with file := none, tempExists := false, upload_path := "" }
  | none => { st with upload_path := "" }

/-- One blocking iteration of `Communication::transfer_watchdog_task`: the
take of `_transfer_watchdog_reset` either succeeds (kick consumed, loop
continues) or times out, in which case the task reports `TRANSFER_TIMEOUT`,
cancels the transfer and breaks out (self-deleting without clearing
`_transfer_watchdog_task_handle`). -/
def transfer_watchdog_expire (st : CommState) : CommState × List Out :=
  if st.wdTaskAlive then
    if st.wdResetSem then
      ({ st with wdResetSem := false }, [])
    else
      (cancel_transfer { st with wdTaskAlive := false },
       [Out.err ErrorCode.TRANSFER_TIMEOUT])
  else (st, [])

/-- `Communication::start_file_upload`. -/
def start_file_upload (st : CommState) (path : String) (total_size : Nat)
    (openOk : Bool) : CommState × List Out × Bool :=
  if transfer_in_progress st then
    (st, [Out.err ErrorCode.TRANSFER_IN_PROGRESS], false)
  else if !openOk then
    ({ st with file := none }, [Out.err ErrorCode.FILE_ERROR], false)
  else
    let st1 := { st with file := some FileHandle.writeTemp, tempExists := true,
                         upload_path := path }
    let st2 := start_transfer_watchdog st1
    ({ st2 with upload_total_size := total_size, upload_bytes_received := 0 },
     [], true)

/-- `Communication::finish_file_transfer`: stop the watchdog, and if a handle
is open, close it and perform remove-existing / make-parent-dirs / rename;
any failing step logs and reports `FILE_ERROR`. -/
def finish_file_transfer (st : CommState) (existsTarget removeOk parentsOk renameOk : Bool) :
    CommState × List Out :=
  let st1 := stop_transfer_watchdog st
  match st1.file with
  | none => (st1, [])
  | some _ =>
    let st2 := { st1 with file := none }
    if existsTarget && !removeOk then
      (st2, [Out.log, Out.err ErrorCode.FILE_ERROR])
    else if !(parentsOk && renameOk) then
      (st2, [Out.log, Out.err ErrorCode.FILE_ERROR])
    else
      ({ st2 with tempExists := false }, [])

/-- `Communication::receive_file_data`.  `written` is the return value of
`_file.write`.  In the no-open-file branch the code calls
`finish_file_transfer()`, which then only stops the watchdog (no storage
results are consulted), logs and reports `FILE_ERROR`. -/
def receive_file_data (st : CommState) (data : List Nat) (written : Nat) :
    CommState × List Out × Bool :=
  match st.file with
  | none =>
    ((finish_file_transfer st true true true true).1,
     [Out.log, Out.err ErrorCode.FILE_ERROR], false)
  | some _ =>
    let st1 := { st with wdResetSem := true }
    if written ≠ data.length then
      (cancel_transfer (stop_transfer_watchdog st1),
       [Out.log, Out.err ErrorCode.FILE_ERROR], false)
    else
      ({ st1 with upload_bytes_received :=
           (st1.upload_bytes_received + written) % 2 ^ 32 }, [], true)

/-- `Communication::start_file_download`.  On open success it drains any
stale ack signal, gives the kick semaphore and creates the "Send Image Task".
It never creates the watchdog task: `_transfer_watchdog_task_handle` is not
assigned (`xTaskCreate` is passed `nullptr` for the handle). -/
def start_file_download (st : CommState) (path : String) (openOk : Bool) :
    CommState × List Out :=
  if !openOk then
    ({ st with file := none }, [Out.log, Out.err ErrorCode.FILE_ERROR])
  else
    ({ st with file := some (FileHandle.readAsset path), ackSem := false,
               wdResetSem := true, senderActive := true }, [])

/-- `(uint32_t)` little-endian decode of the 4 size bytes of
`UPLOAD_IMAGE_START` (the `memcpy` at Communication.cpp line 114). -/
def uint32_le (b0 b1 b2 b3 : Nat) : Nat :=
  b0 + 256 * b1 + 65536 * b2 + 16777216 * b3

/-- `Communication::handle_file_transfer`: consume a decoded packet if it
belongs to the transfer sub-protocol.  Returns the new state, the emitted
outputs, and whether the packet was consumed (`false` means `update` forwards
it to `on_packet`). -/
def handle_file_transfer (st : CommState) (p : packet_t) (io : FSio) :
    CommState × List Out × Bool :=
  match p.command with
  | Command.UPLOAD_IMAGE_START =>
    if p.data.length ≠ 5 then (st, [Out.err ErrorCode.INVALID_DATA], true)
    else
      let total := uint32_le (p.data.getD 1 0) (p.data.getD 2 0)
                            (p.data.getD 3 0) (p.data.getD 4 0)
      let path := get_image_path (p.data.getD 0 0)
      let r := start_file_upload st path total io.openOk
      if r.2.2 then (r.1, r.2.1 ++ [Out.sendPacket Command.ACK []], true)
      else (r.1, r.2.1, true)
  | Command.UPLOAD_IMAGE_DATA =>
    if !transfer_in_progress st then
      (st, [Out.log, Out.err ErrorCode.INVALID_COMMAND], true)
    else
      let r := receive_file_data st p.data io.written
      if r.2.2 then (r.1, r.2.1 ++ [Out.sendPacket Command.ACK []], true)
      else (r.1, r.2.1, true)
  | Command.UPLOAD_IMAGE_END =>
    if !transfer_in_progress st then
      (st, [Out.log, Out.err ErrorCode.INVALID_COMMAND], true)
    else if st.upload_bytes_received ≠ st.upload_total_size then
      (cancel_transfer st, [Out.log, Out.err ErrorCode.INVALID_COMMAND], true)
    else
      let r := finish_file_transfer st io.existsTarget io.removeOk io.parentsOk io.renameOk
      -- the caller sends ACK and fires on_file_received unconditionally,
      -- even when finish_file_transfer reported FILE_ERROR
      (r.1, r.2 ++ [Out.sendPacket Command.ACK [],
                    Out.notifyFileReceived r.1.upload_path], true)
  | Command.DOWNLOAD_IMAGE_START =>
    if p.data.length ≠ 1 then (st, [Out.err ErrorCode.INVALID_DATA], true)
    else
      let r := start_file_download st (get_image_path (p.data.getD 0 0)) io.openOk
      (r.1, r.2, true)
  | Command.ACK =>
    if !transfer_in_progress st then (st, [], false)
    else ({ st with ackSem := true }, [], true)
  | _ => (st, [], false)

/-- The chunk decomposition performed by the send loop of
`Communication::send_image_task`: read `min(512, remaining)` bytes until the
source is exhausted. -/
def send_image_chunks (l : List Nat) : List (List Nat) :=
  if h : l = [] then []
  else
    l.take TRANSFER_SEND_MAX_CHUNK_SIZE ::
      send_image_chunks (l.drop TRANSFER_SEND_MAX_CHUNK_SIZE)
termination_by l.length
decreasing_by
  simp only [List.length_drop]
  have := List.length_pos.mpr h
  simp only [TRANSFER_SEND_MAX_CHUNK_SIZE]
  omega

/-- Actions of the send-image task, in program order: emitting a
`DOWNLOAD_IMAGE_DATA` chunk, the bounded take of `_transfer_waiting_for_ack`
(recording whether it was acquired), the watchdog kick on acquisition, and
the final `DOWNLOAD_IMAGE_END`. -/
inductive SendAct
  | sendData (chunk : List Nat)
  | takeAck (acquired : Bool)
  | kickWatchdog
  | sendEnd
deriving DecidableEq, Repr

/-- `Communication::send_image_task` with an open source of content `content`
and per-chunk ack-wait outcomes `acks` (true iff the semaphore was given in
time): the sequence of actions performed.  Reads are sequential and succeed;
a missed ack only skips the kick, the loop still advances. -/
def send_image_loop (content : List Nat) (acks : List Bool) : List SendAct :=
  if h : content = [] then [SendAct.sendEnd]
  else
    SendAct.sendData (content.take TRANSFER_SEND_MAX_CHUNK_SIZE) ::
    SendAct.takeAck (acks.headD false) ::
    ((if acks.headD false then [SendAct.kickWatchdog] else []) ++
      send_image_loop (content.drop TRANSFER_SEND_MAX_CHUNK_SIZE) acks.tail)
termination_by content.length
decreasing_by
  simp only [List.length_drop]
  have := List.length_pos.mpr h
  simp only [TRANSFER_SEND_MAX_CHUNK_SIZE]
  omega

/-- The data payloads of a send-task trace, in order. -/
def dataChunks (tr : List SendAct) : List (List Nat) :=
  tr.filterMap (fun a => match a with
    | SendAct.sendData c => some c
    | _ => none)

/-- Number of ack-wait operations in a trace. -/
def countAck (tr : List SendAct) : Nat :=
  tr.countP (fun a => match a with
    | SendAct.takeAck _ => true
    | _ => false)

/-! ## Concrete scenario states used by the transfer-engine claims -/

/-- Storage results with every operation succeeding and no pre-existing
destination file. -/
def ioOpen : FSio :=
  { openOk := true, written := 0, existsTarget := false, removeOk := true,
    parentsOk := true, renameOk := true }

/-- State after `UPLOAD_IMAGE_START` for segment 1, declared size 10. -/
def uploadActive10 : CommState :=
  (handle_file_transfer initCommState
    { command := Command.UPLOAD_IMAGE_START, data := [1, 10, 0, 0, 0] } ioOpen).1

/-- `uploadActive10` after one accepted 5-byte chunk. -/
def uploadHalf10 : CommState :=
  (handle_file_transfer uploadActive10
    { command := Command.UPLOAD_IMAGE_DATA, data := [1, 2, 3, 4, 5] }
    { ioOpen with written := 5 }).1

/-- State after `UPLOAD_IMAGE_START` for segment 1, declared size 4. -/
def uploadActive4 : CommState :=
  (handle_file_transfer initCommState
    { command := Command.UPLOAD_IMAGE_START, data := [1, 4, 0, 0, 0] } ioOpen).1

/-- `uploadActive4` after one accepted 4-byte chunk: all declared bytes
received. -/
def uploadFull4 : CommState :=
  (handle_file_transfer uploadActive4
    { command := Command.UPLOAD_IMAGE_DATA, data := [9, 9, 9, 9] }
    { ioOpen with written := 4 }).1

/-- State after `UPLOAD_IMAGE_START` for segment 1, declared size 5. -/
def uploadActive5 : CommState :=
  (handle_file_transfer initCommState
    { command := Command.UPLOAD_IMAGE_START, data := [1, 5, 0, 0, 0] } ioOpen).1

/-- State after `DOWNLOAD_IMAGE_START` for segment 0 from the idle state. -/
def downloadActive : CommState :=
  (handle_file_transfer initCommState
    { command := Command.DOWNLOAD_IMAGE_START, data := [0] } ioOpen).1

/-! ## Download chunking lemmas -/

theorem send_image_chunks_length (l : List Nat) :
    (send_image_chunks l).length = (l.length + 511) / 512 := by
  induction l using send_image_chunks.induct with
  | case1 => simp [send_image_chunks]
  | case2 l h ih =>
    rw [send_image_chunks]
    simp only [TRANSFER_SEND_MAX_CHUNK_SIZE] at ih ⊢
    simp only [h, dite_false, List.length_cons, ih, List.length_drop]
    have hp : 0 < l.length := List.length_pos.mpr h
    omega

theorem send_image_chunks_le (l : List Nat) :
    ∀ c ∈ send_image_chunks l, c.length ≤ TRANSFER_SEND_MAX_CHUNK_SIZE := by
  induction l using send_image_chunks.induct with
  | case1 => simp [send_image_chunks]
  | case2 l h ih =>
    rw [send_image_chunks]
    simp only [h, dite_false, List.mem_cons]
    rintro c (rfl | hc)
    · simp [List.length_take]
    · exact ih c hc

theorem send_image_chunks_flatten (l : List Nat) :
    (send_image_chunks l).flatten = l := by
  induction l using send_image_chunks.induct with
  | case1 => simp [send_image_chunks]
  | case2 l h ih =>
    rw [send_image_chunks]
    simp only [h, dite_false, List.flatten_cons, ih]
    exact List.take_append_drop TRANSFER_SEND_MAX_CHUNK_SIZE l

theorem send_image_loop_dataChunks (content : List Nat) (acks : List Bool) :
    dataChunks (send_image_loop content acks) = send_image_chunks content := by
  induction content, acks using send_image_loop.induct with
  | case1 a => simp [send_image_loop, send_image_chunks, dataChunks]
  | case2 content acks h ih =>
    rw [send_image_loop, send_image_chunks]
    simp only [h, dite_false]
    cases hg : acks.headD false <;>
      simp only [hg, if_true, if_false, dataChunks, List.filterMap_cons,
        List.filterMap_append, List.filterMap_nil] <;>
      simpa [dataChunks] using ih

theorem send_image_loop_countAck (content : List Nat) (acks : List Bool) :
    countAck (send_image_loop content acks) = (send_image_chunks content).length := by
  induction content, acks using send_image_loop.induct with
  | case1 a => simp [send_image_loop, send_image_chunks, countAck]
  | case2 content acks h ih =>
    rw [send_image_loop, send_image_chunks]
    simp only [h, dite_false]
    simp only [countAck] at ih
    cases hg : acks.headD false <;>
      simp [hg, countAck, List.countP_cons, List.countP_append, ih]

theorem send_image_loop_ends (content : List Nat) (acks : List Bool) :
    ∃ body, send_image_loop content acks = body ++ [SendAct.sendEnd]
      ∧ body.count SendAct.sendEnd = 0 := by
  induction content, acks using send_image_loop.induct with
  | case1 a => exact ⟨[], by simp [send_image_loop]⟩
  | case2 content acks h ih =>
    obtain ⟨body, hb, hc⟩ := ih
    refine ⟨SendAct.sendData (content.take TRANSFER_SEND_MAX_CHUNK_SIZE) ::
      SendAct.takeAck (acks.headD false) ::
      ((if acks.headD false then [SendAct.kickWatchdog] else []) ++ body), ?_, ?_⟩
    · rw [send_image_loop]
      simp [h, hb]
    · cases hg : acks.headD false <;>
        simp [hg, List.count_cons, List.count_append, hc]

/-- C9: an uninterrupted download of an N-byte source emits exactly
`ceil(N/512)` `DOWNLOAD_IMAGE_DATA` chunks, each at most 512 bytes, whose
concatenation is exactly the source content, followed by exactly one final
`DOWNLOAD_IMAGE_END`; the sender performs exactly one bounded ack-wait
(consuming at most one ACK) per data chunk and none for the end marker. -/
theorem download_chunking_spec (content : List Nat) (acks : List Bool) :
    dataChunks (send_image_loop content acks) = send_image_chunks content
    ∧ (send_image_chunks content).length = (content.length + 511) / 512
    ∧ (∀ c ∈ send_image_chunks content, c.length ≤ TRANSFER_SEND_MAX_CHUNK_SIZE)
    ∧ (send_image_chunks content).flatten = content
    ∧ countAck (send_image_loop content acks) = (send_image_chunks content).length
    ∧ (∃ body, send_image_loop content acks = body ++ [SendAct.sendEnd]
        ∧ body.count SendAct.sendEnd = 0) :=
  ⟨send_image_loop_dataChunks content acks,
   send_image_chunks_length content,
   send_image_chunks_le content,
   send_image_chunks_flatten content,
   send_image_loop_countAck content acks,
   send_image_loop_ends content acks⟩

/-! ## Claim theorems for the transfer engine -/

/-- C1: the claim states that a transfer is in progress iff the
transfer-watchdog task handle is non-null, that starting a download activates
the watchdog, and that watchdog expiry deactivates the handle.  The code
violates all three at the inputs evaluated here: `start_file_download` leaves
`_transfer_watchdog_task_handle` null while the sender task runs, and the
watchdog's expiry branch self-terminates without clearing the handle, so
`transfer_in_progress` stays true after the transfer was cancelled. -/
theorem download_and_expiry_desync_watchdog_handle :
    ((start_file_download initCommState (get_image_path 0) true).1.senderActive = true
     ∧ transfer_in_progress (start_file_download initCommState (get_image_path 0) true).1
         = false)
    ∧ ((transfer_watchdog_expire (transfer_watchdog_expire
          (start_file_upload initCommState (get_image_path 1) 10 true).1).1).2
         = [Out.err ErrorCode.TRANSFER_TIMEOUT]
       ∧ (transfer_watchdog_expire (transfer_watchdog_expire
            (start_file_upload initCommState (get_image_path 1) 10 true).1).1).1.wdTaskAlive
           = false
       ∧ transfer_in_progress (transfer_watchdog_expire (transfer_watchdog_expire
            (start_file_upload initCommState (get_image_path 1) 10 true).1).1).1
           = true) := by
  refine ⟨⟨rfl, rfl⟩, rfl, rfl, rfl⟩

/-- C2: the claim states that starting a second upload or download while a
transfer is active is rejected with `TransferInProgress`, leaving the
original transfer untouched.  Evaluated on the code: with an upload active,
`DOWNLOAD_IMAGE_START` is not rejected — `start_file_download` performs no
`transfer_in_progress` check, emits nothing, reopens `_file` on the source
asset (clobbering the upload's staging handle) and starts the sender task. -/
theorem second_download_not_rejected :
    transfer_in_progress uploadActive10 = true
    ∧ (handle_file_transfer uploadActive10
        { command := Command.DOWNLOAD_IMAGE_START, data := [2] } ioOpen).2.1 = []
    ∧ (handle_file_transfer uploadActive10
        { command := Command.DOWNLOAD_IMAGE_START, data := [2] } ioOpen).1.file
        = some (FileHandle.readAsset (get_image_path 2))
    ∧ (handle_file_transfer uploadActive10
        { command := Command.DOWNLOAD_IMAGE_START, data := [2] } ioOpen).1.senderActive
        = true := by
  refine ⟨rfl, rfl, rfl, rfl⟩

/-- C3: the claim states that while a download is active every received ACK
is consumed by the transfer engine and releases the sender's ack wait.
Evaluated on the code: during a download `transfer_in_progress()` is false
(no watchdog task was created), so the ACK case returns `false` — the packet
is forwarded to the external handler and `_transfer_waiting_for_ack` is never
given. -/
theorem ack_during_download_not_consumed :
    downloadActive.senderActive = true
    ∧ downloadActive.file = some (FileHandle.readAsset (get_image_path 0))
    ∧ (handle_file_transfer downloadActive
        { command := Command.ACK, data := [] } ioOpen).2.2 = false
    ∧ (handle_file_transfer downloadActive
        { command := Command.ACK, data := [] } ioOpen).1.ackSem = false := by
  refine ⟨rfl, rfl, rfl, rfl⟩

/-- C5: the claim states that on `UPLOAD_IMAGE_END` with matching sizes the
ACK and the `on_file_received` notification are emitted only when every
finalize step succeeds, and that a failing step yields exactly one FileError
with no ACK and no notification.  Evaluated on the code with the rename step
failing: `finish_file_transfer` reports `FILE_ERROR`, yet the caller still
sends ACK and fires `on_file_received`, and the staging file is left in
place. -/
theorem upload_end_acks_despite_file_error :
    (handle_file_transfer uploadFull4
      { command := Command.UPLOAD_IMAGE_END, data := [] }
      { ioOpen with renameOk := false }).2.1
      = [Out.log, Out.err ErrorCode.FILE_ERROR,
         Out.sendPacket Command.ACK [],
         Out.notifyFileReceived (get_image_path 1)]
    ∧ (handle_file_transfer uploadFull4
        { command := Command.UPLOAD_IMAGE_END, data := [] }
        { ioOpen with renameOk := false }).1.tempExists = true := by
  refine ⟨rfl, rfl⟩

/-- C6: the claim states that a size-mismatched `UPLOAD_IMAGE_END` cancels
the transfer including stopping the watchdog.  Evaluated on the code: the
mismatch path closes the handle, deletes the staging file, clears the path
and reports `InvalidCommand`, but calls only `cancel_transfer`, which never
stops the watchdog — the watchdog task stays alive with its handle set. -/
theorem size_mismatch_leaves_watchdog_running :
    (handle_file_transfer uploadHalf10
      { command := Command.UPLOAD_IMAGE_END, data := [] } ioOpen).2.1
      = [Out.log, Out.err ErrorCode.INVALID_COMMAND]
    ∧ (handle_file_transfer uploadHalf10
        { command := Command.UPLOAD_IMAGE_END, data := [] } ioOpen).1.file = none
    ∧ (handle_file_transfer uploadHalf10
        { command := Command.UPLOAD_IMAGE_END, data := [] } ioOpen).1.upload_path = ""
    ∧ (handle_file_transfer uploadHalf10
        { command := Command.UPLOAD_IMAGE_END, data := [] } ioOpen).1.tempExists = false
    ∧ (handle_file_transfer uploadHalf10
        { command := Command.UPLOAD_IMAGE_END, data := [] } ioOpen).1.wdHandle = true
    ∧ (handle_file_transfer uploadHalf10
        { command := Command.UPLOAD_IMAGE_END, data := [] } ioOpen).1.wdTaskAlive = true := by
  refine ⟨rfl, rfl, rfl, rfl, rfl, rfl⟩

/-- C7 counterexample: with an upload of declared size 5 active, a 10-byte
chunk is accepted (it is acknowledged) and leaves
`upload_bytes_received = 10 > 5 = upload_total_size`, so the claimed
invariant `bytes_transferred <= total_size` fails during the upload. -/
theorem chunk_overrun_accepted :
    (handle_file_transfer uploadActive5
      { command := Command.UPLOAD_IMAGE_DATA, data := [0, 1, 2, 3, 4, 5, 6, 7, 8, 9] }
      { ioOpen with written := 10 }).2.1 = [Out.sendPacket Command.ACK []]
    ∧ (handle_file_transfer uploadActive5
        { command := Command.UPLOAD_IMAGE_DATA, data := [0, 1, 2, 3, 4, 5, 6, 7, 8, 9] }
        { ioOpen with written := 10 }).1.upload_bytes_received = 10
    ∧ (handle_file_transfer uploadActive5
        { command := Command.UPLOAD_IMAGE_DATA, data := [0, 1, 2, 3, 4, 5, 6, 7, 8, 9] }
        { ioOpen with written := 10 }).1.upload_total_size = 5 := by
  refine ⟨rfl, rfl, rfl⟩

/-- C7 (amended): `receive_file_data` never consults `upload_total_size` — a
fully written chunk is always accepted and adds its size to
`upload_bytes_received` (mod 2^32), so the counter can exceed the declared
total during an upload; the bound is enforced only at `UPLOAD_IMAGE_END`,
which cancels the transfer and reports `InvalidCommand` unless the counter
equals the declared total. -/
theorem receive_data_unchecked_until_end :
    (∀ (st : CommState) (h : FileHandle) (data : List Nat) (written : Nat),
      st.file = some h → written = data.length →
      receive_file_data st data written =
        ({ st with
            wdResetSem := true,
            upload_bytes_received := (st.upload_bytes_received + written) % 2 ^ 32 },
         [], true))
    ∧ (∀ (st : CommState) (io : FSio),
      transfer_in_progress st = true →
      st.upload_bytes_received ≠ st.upload_total_size →
      handle_file_transfer st { command := Command.UPLOAD_IMAGE_END, data := [] } io =
        (cancel_transfer st, [Out.log, Out.err ErrorCode.INVALID_COMMAND], true)) := by
  constructor
  · intro st h data written hfile hw
    simp [receive_file_data, hfile, hw]
  · intro st io hprog hne
    simp [handle_file_transfer, hprog, hne]

/-- C7 witness: the amended theorem applied at concrete inputs. -/
theorem receive_data_unchecked_until_end_witness :
    receive_file_data uploadActive5 [0, 1, 2, 3, 4, 5, 6, 7, 8, 9] 10 =
      ({ uploadActive5 with
          wdResetSem := true,
          upload_bytes_received := (uploadActive5.upload_bytes_received + 10) % 2 ^ 32 },
       [], true)
    ∧ handle_file_transfer uploadHalf10
        { command := Command.UPLOAD_IMAGE_END, data := [] } ioOpen =
      (cancel_transfer uploadHalf10,
       [Out.log, Out.err ErrorCode.INVALID_COMMAND], true) := by
  constructor
  · exact receive_data_unchecked_until_end.1 uploadActive5 FileHandle.writeTemp
      [0, 1, 2, 3, 4, 5, 6, 7, 8, 9] 10 rfl rfl
  · exact receive_data_unchecked_until_end.2 uploadHalf10 ioOpen rfl (by decide)

/-! ## Packet codec lemmas -/

theorem getD_append_left (l m : List Nat) (i d : Nat) (h : i < l.length) :
    (l ++ m).getD i d = l.getD i d := by
  induction l generalizing i with
  | nil => simp at h
  | cons a t ih =>
    cases i with
    | zero => rfl
    | succ j => simpa using ih j (by simpa using h)

theorem getD_append_length (l m : List Nat) (d : Nat) :
    (l ++ m).getD l.length d = m.getD 0 d := by
  induction l with
  | nil => rfl
  | cons a t ih => simpa using ih

theorem lor_byte_decomp (n : Nat) (h : n < 65536) :
    (n &&& 255) ||| (((n >>> 8) &&& 255) <<< 8) = n := by
  have h1 : n &&& 255 = n % 256 := by
    simpa using Nat.and_pow_two_sub_one_eq_mod n 8
  have h2 : n >>> 8 = n / 256 := by
    rw [Nat.shiftRight_eq_div_pow]
  have h4 : (n / 256) &&& 255 = n / 256 := by
    have h3' : n / 256 < 2 ^ 8 := by omega
    simpa using Nat.and_pow_two_sub_one_of_lt_two_pow h3'
  have h5 : (n / 256) <<< 8 = 256 * (n / 256) := by
    rw [Nat.shiftLeft_eq]
    ring
  have h7 : (256 : Nat) * (n / 256) + n % 256 = 256 * (n / 256) ||| n % 256 := by
    have hb : n % 256 < 2 ^ 8 := by omega
    simpa using Nat.mul_add_lt_is_or hb (n / 256)
  rw [h1, h2, h4, h5, Nat.lor_comm]
  omega

/-- A byte fed into an active frame that neither is the third byte nor
completes the frame is plainly appended. -/
theorem processByte_accum (sb now : Nat) (st : RxState) (b : Nat)
    (hin : st.inPacket = true)
    (h3 : st.buffer.length + 1 ≠ 3)
    (hcomp : st.buffer.length + 1 ≠ st.expectedSize + 4) :
    processByte sb now st b =
      ({ st with buffer := st.buffer ++ [b], lastInDataTime := now }, []) := by
  simp only [processByte, hin, completionCheck]
  simp [h3, hcomp]

/-- Processing a run of bytes that stays strictly inside the declared frame
size appends them all with no events. -/
theorem processBytes_fill (sb now : Nat) (st : RxState) (bytes : List Nat)
    (hin : st.inPacket = true) (hnow : st.lastInDataTime = now)
    (h3 : 3 ≤ st.buffer.length)
    (hfit : st.buffer.length + bytes.length ≤ st.expectedSize + 3) :
    processBytes sb now st bytes = ({ st with buffer := st.buffer ++ bytes }, []) := by
  induction bytes generalizing st with
  | nil =>
    simp [processBytes]
  | cons b rest ih =>
    have hstep : processByte sb now st b =
        ({ st with buffer := st.buffer ++ [b], lastInDataTime := now }, []) := by
      have e1 : st.buffer.length + 1 ≠ 3 := by omega
      have e2 : st.buffer.length + 1 ≠ st.expectedSize + 4 := by
        simp at hfit
        omega
      exact processByte_accum sb now st b hin e1 e2
    have hmid : ({ st with buffer := st.buffer ++ [b], lastInDataTime := now } : RxState)
        = { st with buffer := st.buffer ++ [b] } := by
      rw [hnow]
    have hrec := ih { st with buffer := st.buffer ++ [b] } hin hnow
      (by simp; omega) (by simp at hfit ⊢; omega)
    simp only [processBytes, hstep, hmid, hrec]
    simp

theorem processByte_start (sb now : Nat) (st : RxState) (hidle : st.inPacket = false) :
    processByte sb now st sb =
      ({ st with buffer := [], inPacket := true, lastInDataTime := now }, []) := by
  simp [processByte, hidle]

theorem processByte_third (sb now : Nat) (st : RxState) (b : Nat)
    (hin : st.inPacket = true) (hlen : st.buffer.length = 2)
    (hexp : st.buffer.getD 1 0 ||| (b <<< 8) ≤ MAX_PACKET_SIZE - 4) :
    processByte sb now st b =
      ({ st with
          buffer := st.buffer ++ [b],
          lastInDataTime := now,
          expectedSize := st.buffer.getD 1 0 ||| (b <<< 8) }, []) := by
  have g1 := getD_append_left st.buffer [b] 1 0 (by omega)
  have g2 : (st.buffer ++ [b]).getD 2 0 = b := by
    have h := getD_append_length st.buffer [b] 0
    rw [hlen] at h
    simpa using h
  simp only [processByte, hin, completionCheck]
  simp only [List.getD_eq_getElem?_getD] at g1 g2 hexp ⊢
  simp only [List.length_append, List.length_cons, List.length_nil, hlen]
  norm_num
  rw [g1, g2]
  have hov : ¬ (MAX_PACKET_SIZE - 4 < st.buffer[1]?.getD 0 ||| (b <<< 8)) := by
    simp only [MAX_PACKET_SIZE] at hexp ⊢
    omega
  rw [if_neg hov]

theorem processByte_completing (sb now : Nat) (st : RxState) (b : Nat)
    (hin : st.inPacket = true) (hne3 : st.buffer.length + 1 ≠ 3) :
    processByte sb now st b =
      completionCheck now { st with buffer := st.buffer ++ [b], lastInDataTime := now } := by
  simp only [processByte, hin]
  simp [hne3]

theorem completionCheck_complete (now : Nat) (st : RxState)
    (hlen : st.buffer.length = st.expectedSize + 4)
    (hmatch : st.buffer.getD (st.buffer.length - 1) 0
      = calculate_checksum (st.buffer.take (st.buffer.length - 1))) :
    completionCheck now st =
      ({ st with inPacket := false, buffer := [], lastInPacketTime := now },
       [RxEvent.packet { command := st.buffer.getD 0 0,
                         data := (st.buffer.drop 3).take st.expectedSize }]) := by
  simp only [completionCheck]
  rw [if_pos ⟨by omega, hlen⟩]
  rw [if_pos hmatch]

theorem processByte_finish (sb now : Nat) (st : RxState) (b : Nat)
    (hin : st.inPacket = true)
    (hlen : st.buffer.length = st.expectedSize + 3)
    (hchk : b = calculate_checksum st.buffer) :
    processByte sb now st b =
      ({ st with
          inPacket := false,
          buffer := [],
          lastInDataTime := now,
          lastInPacketTime := now },
       [RxEvent.packet { command := st.buffer.getD 0 0,
                         data := st.buffer.drop 3 }]) := by
  have grecv : (st.buffer ++ [b]).getD st.buffer.length 0 = b := by
    simpa using getD_append_length st.buffer [b] 0
  have gtake : (st.buffer ++ [b]).take st.buffer.length = st.buffer :=
    List.take_left' rfl
  have gcmd : (st.buffer ++ [b]).getD 0 0 = st.buffer.getD 0 0 :=
    getD_append_left _ _ _ _ (by omega)
  have gdrop : ((st.buffer ++ [b]).drop 3).take st.expectedSize = st.buffer.drop 3 := by
    rw [List.drop_append_eq_append_drop]
    have h0 : 3 - st.buffer.length = 0 := by omega
    rw [h0]
    simp only [List.drop_zero]
    exact List.take_left' (by simp [List.length_drop, hlen])
  have hl1 : (st.buffer ++ [b]).length - 1 = st.buffer.length := by simp
  rw [processByte_completing sb now st b hin (by omega)]
  rw [completionCheck_complete now _ (by simp [hlen]) (by rw [hl1, grecv, gtake, hchk])]
  rw [gcmd, gdrop]

theorem processBytes_cons_of (sb now : Nat) (st st' : RxState) (b : Nat) (bytes : List Nat)
    (ev : List RxEvent) (h : processByte sb now st b = (st', ev)) :
    processBytes sb now st (b :: bytes) =
      ((processBytes sb now st' bytes).1, ev ++ (processBytes sb now st' bytes).2) := by
  simp [processBytes, h]

theorem processBytes_append (sb now : Nat) (st : RxState) (l m : List Nat) :
    processBytes sb now st (l ++ m) =
      ((processBytes sb now (processBytes sb now st l).1 m).1,
       (processBytes sb now st l).2 ++ (processBytes sb now (processBytes sb now st l).1 m).2) := by
  induction l generalizing st with
  | nil => simp [processBytes]
  | cons b t ih => simp [processBytes, ih]

/-- C4: for every command byte and payload of length 0..4092 (payload bytes
may include the start marker), serializing with `send_packet` and feeding the
bytes one at a time into the receive parser from any idle frame state yields
exactly one decoded packet with the same command and payload, and no error
events. -/
theorem serialize_ingest_roundtrip (sb cmd now : Nat) (st : RxState) (payload : List Nat)
    (hidle : st.inPacket = false) (hcmd : cmd < 256)
    (hlen : payload.length ≤ MAX_PACKET_SIZE - 4) (hbytes : ∀ b ∈ payload, b < 256) :
    (update sb now st (send_packet sb cmd payload)).2
      = [RxEvent.packet { command := cmd, data := payload }] := by
  have hlenn : payload.length < 65536 := by
    simp [MAX_PACKET_SIZE] at hlen
    omega
  have hlor : (payload.length &&& 255) ||| (((payload.length >>> 8) &&& 255) <<< 8)
      = payload.length := lor_byte_decomp payload.length hlenn
  have hto : checkTimeout now st = (st, []) := by simp [checkTimeout, hidle]
  simp only [update, hto, send_packet]
  rw [processBytes_cons_of sb now st _ sb _ _ (processByte_start sb now st hidle)]
  rw [processBytes_cons_of sb now _ _ cmd _ _
    (processByte_accum sb now
      { st with buffer := [], inPacket := true, lastInDataTime := now } cmd rfl
      (by simp) (by simp))]
  dsimp only
  simp only [List.nil_append]
  rw [processBytes_cons_of sb now _ _ (payload.length &&& 255) _ _
    (processByte_accum sb now
      { st with buffer := [cmd], inPacket := true, lastInDataTime := now }
      (payload.length &&& 255) rfl (by simp) (by simp))]
  dsimp only
  simp only [List.cons_append, List.nil_append]
  rw [processBytes_cons_of sb now _ _ (payload.length >>> 8 &&& 255) _ _
    (processByte_third sb now
      { st with buffer := [cmd, payload.length &&& 255], inPacket := true,
                lastInDataTime := now }
      (payload.length >>> 8 &&& 255) rfl rfl
      (by simpa [hlor] using hlen))]
  dsimp only
  simp only [List.cons_append, List.nil_append, List.getD_cons_succ, List.getD_cons_zero, hlor]
  
  rw [processBytes_append]
  rw [processBytes_fill sb now
    { st with
      buffer := [cmd, payload.length &&& 255, payload.length >>> 8 &&& 255],
      inPacket := true,
      lastInDataTime := now,
      expectedSize := payload.length }
    payload rfl rfl (by simp) (by simp [Nat.add_comm])]
  dsimp only
  simp only [List.cons_append, List.nil_append]
  
  have hcks : List.foldl (fun c b => c ^^^ b)
      ((cmd ^^^ (payload.length &&& 255)) ^^^ ((payload.length >>> 8) &&& 255)) payload
      = calculate_checksum
          (cmd :: (payload.length &&& 255) :: ((payload.length >>> 8) &&& 255) :: payload) := by
    simp [calculate_checksum]
  rw [processBytes_cons_of sb now _ _ _ _ _
    (processByte_finish sb now
      { st with
        buffer := cmd :: (payload.length &&& 255) :: ((payload.length >>> 8) &&& 255) :: payload,
        inPacket := true,
        lastInDataTime := now,
        expectedSize := payload.length }
      _ rfl (by simp only [List.length_cons]) hcks)]
  dsimp only
  simp [processBytes]

theorem processByte_overflow (sb now : Nat) (st : RxState) (b c lo : Nat)
    (hin : st.inPacket = true) (hbuf : st.buffer = [c, lo])
    (hov : MAX_PACKET_SIZE - 4 < lo ||| (b <<< 8)) :
    processByte sb now st b =
      ({ st with
          buffer := [c, lo, b],
          lastInDataTime := now,
          inPacket := false,
          expectedSize := lo ||| (b <<< 8) },
       [RxEvent.log, RxEvent.err ErrorCode.BUFFER_OVERFLOW]) := by
  simp [processByte, hin, hbuf, hov]

theorem processByte_preserves_inv (sb now : Nat) (st : RxState) (b : Nat)
    (hinv : RxInv st) : RxInv (processByte sb now st b).1 := by
  obtain ⟨h1, h2⟩ := hinv
  by_cases hin : st.inPacket = true
  · have hc := h1 hin
    simp only [processByte, completionCheck]
    have hfalse : ¬(st.inPacket = false ∧ b = sb) := by simp [hin]
    rw [if_neg hfalse, if_pos hin]
    split
    next h3 =>
      split
      next hov =>
        refine ⟨fun hf => by simp at hf, ?_⟩
        dsimp only
        simp only [List.length_append, List.length_cons, List.length_nil,
          MAX_PACKET_SIZE] at h3 ⊢
        omega
      next hov =>
        split
        next hcomp =>
          split <;>
            exact ⟨fun _ => Or.inl (by simp [MAX_PACKET_SIZE]), by simp [MAX_PACKET_SIZE]⟩
        next hcomp =>
          simp only [RxInv]
          simp only [List.length_append, List.length_cons, List.length_nil,
            MAX_PACKET_SIZE] at h3 hov hcomp hc h2 ⊢
          exact ⟨fun _ => by omega, by omega⟩
    next h3 =>
      split
      next hcomp =>
        split <;>
          exact ⟨fun _ => Or.inl (by simp [MAX_PACKET_SIZE]), by simp [MAX_PACKET_SIZE]⟩
      next hcomp =>
        simp only [RxInv]
        simp only [List.length_append, List.length_cons, List.length_nil,
          MAX_PACKET_SIZE] at h3 hcomp hc h2 ⊢
        exact ⟨fun _ => by omega, by omega⟩
  · have hin' : st.inPacket = false := by
      cases hb : st.inPacket
      · rfl
      · exact absurd hb hin
    simp only [processByte, hin', Bool.false_eq_true, if_false, eq_self_iff_true, true_and]
    split
    next h =>
      exact ⟨fun _ => Or.inl (by simp), by simp [MAX_PACKET_SIZE]⟩
    next h =>
      exact ⟨h1, h2⟩

theorem checkTimeout_preserves_inv (now : Nat) (st : RxState)
    (hinv : RxInv st) : RxInv (checkTimeout now st).1 := by
  obtain ⟨h1, h2⟩ := hinv
  unfold checkTimeout
  split
  · exact ⟨fun _ => Or.inl (by simp), by simp [MAX_PACKET_SIZE]⟩
  · exact ⟨h1, h2⟩

theorem initRxState_inv : RxInv initRxState := by
  constructor
  · intro h
    simp [initRxState] at h
  · simp [initRxState, MAX_PACKET_SIZE]

theorem processByte_content (sb now : Nat) (st : RxState) (b : Nat) (hin : st.inPacket = true) :
    ((processByte sb now st b).1.inPacket = true →
      (processByte sb now st b).1.buffer = st.buffer ++ [b])
    ∧ ((processByte sb now st b).1.inPacket = false →
      (∃ p, RxEvent.packet p ∈ (processByte sb now st b).2)
      ∨ RxEvent.err ErrorCode.CHECKSUM_ERROR ∈ (processByte sb now st b).2
      ∨ RxEvent.err ErrorCode.BUFFER_OVERFLOW ∈ (processByte sb now st b).2) := by
  simp only [processByte, completionCheck]
  have hfalse : ¬(st.inPacket = false ∧ b = sb) := by simp [hin]
  rw [if_neg hfalse, if_pos hin]
  split
  next h3 =>
    split
    next hov =>
      constructor
      · intro hf
        simp at hf
      · intro _
        right
        right
        simp
    next hov =>
      split
      next hcomp =>
        split
        next hchk =>
          constructor
          · intro hf
            simp at hf
          · intro _
            left
            exact ⟨_, List.mem_singleton_self _⟩
        next hchk =>
          constructor
          · intro hf
            simp at hf
          · intro _
            right
            left
            simp
      next hcomp =>
        constructor
        · intro _
          simp
        · intro hf
          simp [hin] at hf
  next h3 =>
    split
    next hcomp =>
      split
      next hchk =>
        constructor
        · intro hf
          simp at hf
        · intro _
          left
          exact ⟨_, List.mem_singleton_self _⟩
      next hchk =>
        constructor
        · intro hf
          simp at hf
        · intro _
          right
          left
          simp
    next hcomp =>
      constructor
      · intro _
        simp
      · intro hf
        simp [hin] at hf

theorem checkTimeout_cases (now : Nat) (st : RxState) :
    checkTimeout now st = (st, [])
    ∨ (st.inPacket = true ∧ PACKET_TIMEOUT_MS < elapsed32 now st.lastInDataTime
       ∧ checkTimeout now st
           = ({ st with inPacket := false, buffer := [] }, [RxEvent.log])) := by
  unfold checkTimeout
  split
  next h => exact Or.inr ⟨h.1, h.2, rfl⟩
  next h => exact Or.inl rfl


/-- C4 witness: the round-trip theorem applied at a concrete input whose
command byte and payload both contain the start-marker byte. -/
theorem serialize_ingest_roundtrip_witness :
    (update 170 7 initRxState (send_packet 170 170 [170, 0, 255])).2
      = [RxEvent.packet { command := 170, data := [170, 0, 255] }] :=
  serialize_ingest_roundtrip 170 170 7 initRxState [170, 0, 255]
    rfl (by decide) (by decide) (by decide)

/-- C8: a frame whose two little-endian length bytes declare a payload larger
than `MAX_PACKET_SIZE - 4 = 4092` is discarded at the third byte with a log
message and a `BUFFER_OVERFLOW` error, no packet, and the parser back to
scanning (`_in_packet = false`); and the receive invariant `RxInv` holds
initially and is preserved by the timeout check and by every byte step, so
`_rx_index = buffer.length` stays below the 4096-byte buffer capacity and no
write `_rx_buffer[_rx_index++]` is out of bounds. -/
theorem rx_overflow_and_buffer_bounds :
    (∀ (sb now : Nat) (st : RxState) (b c lo : Nat),
      st.inPacket = true → st.buffer = [c, lo] →
      MAX_PACKET_SIZE - 4 < lo ||| (b <<< 8) →
      processByte sb now st b =
        ({ st with
            buffer := [c, lo, b],
            lastInDataTime := now,
            inPacket := false,
            expectedSize := lo ||| (b <<< 8) },
         [RxEvent.log, RxEvent.err ErrorCode.BUFFER_OVERFLOW]))
    ∧ RxInv initRxState
    ∧ (∀ (now : Nat) (st : RxState), RxInv st → RxInv (checkTimeout now st).1)
    ∧ (∀ (sb now : Nat) (st : RxState) (b : Nat),
        RxInv st → RxInv (processByte sb now st b).1)
    ∧ (∀ st : RxState, RxInv st → st.buffer.length < MAX_PACKET_SIZE) :=
  ⟨processByte_overflow, initRxState_inv, checkTimeout_preserves_inv,
   processByte_preserves_inv, fun _ h => h.2⟩

/-- C8 witness: the overflow branch evaluated on a concrete frame whose
length bytes declare 65535, plus the invariant at concrete states. -/
theorem rx_overflow_and_buffer_bounds_witness :
    processByte 170 5
        { buffer := [7, 255], inPacket := true, lastInDataTime := 0,
          lastInPacketTime := 0, expectedSize := 0 } 255
      = ({ buffer := [7, 255, 255], inPacket := false, lastInDataTime := 5,
           lastInPacketTime := 0, expectedSize := 255 ||| (255 <<< 8) },
         [RxEvent.log, RxEvent.err ErrorCode.BUFFER_OVERFLOW])
    ∧ RxInv (processByte 170 5 initRxState 170).1
    ∧ initRxState.buffer.length < MAX_PACKET_SIZE := by
  refine ⟨?_, ?_, ?_⟩
  · exact rx_overflow_and_buffer_bounds.1 170 5
      { buffer := [7, 255], inPacket := true, lastInDataTime := 0,
        lastInPacketTime := 0, expectedSize := 0 } 255 7 255 rfl rfl (by decide)
  · exact rx_overflow_and_buffer_bounds.2.2.2.1 170 5 initRxState 170
      rx_overflow_and_buffer_bounds.2.1
  · exact rx_overflow_and_buffer_bounds.2.2.2.2 initRxState
      rx_overflow_and_buffer_bounds.2.1

/-- C10: while a frame is being accumulated every byte — the start marker
included — is appended to the frame as ordinary content (a new frame is never
begun mid-frame), and the parser leaves the frame only by emitting a decoded
packet, a checksum error, or a declared-size overflow error; the only other
way back to scanning is the idle-timeout check at the head of `update`, which
fires exactly when more than `PACKET_TIMEOUT_MS` elapsed since the last byte. -/
theorem start_marker_is_content_midframe :
    (∀ (sb now : Nat) (st : RxState) (b : Nat), st.inPacket = true →
      (((processByte sb now st b).1.inPacket = true →
        (processByte sb now st b).1.buffer = st.buffer ++ [b])
       ∧ ((processByte sb now st b).1.inPacket = false →
         (∃ p, RxEvent.packet p ∈ (processByte sb now st b).2)
         ∨ RxEvent.err ErrorCode.CHECKSUM_ERROR ∈ (processByte sb now st b).2
         ∨ RxEvent.err ErrorCode.BUFFER_OVERFLOW ∈ (processByte sb now st b).2)))
    ∧ (∀ (now : Nat) (st : RxState),
      checkTimeout now st = (st, [])
      ∨ (st.inPacket = true ∧ PACKET_TIMEOUT_MS < elapsed32 now st.lastInDataTime
         ∧ checkTimeout now st
             = ({ st with inPacket := false, buffer := [] }, [RxEvent.log]))) :=
  ⟨processByte_content, checkTimeout_cases⟩

/-- C10 witness: a received byte equal to the start marker (170) is appended
to an active frame as content. -/
theorem start_marker_is_content_midframe_witness :
    (processByte 170 0
        { buffer := [1], inPacket := true, lastInDataTime := 0,
          lastInPacketTime := 0, expectedSize := 0 } 170).1.buffer = [1] ++ [170] :=
  (start_marker_is_content_midframe.1 170 0
    { buffer := [1], inPacket := true, lastInDataTime := 0,
      lastInPacketTime := 0, expectedSize := 0 } 170 rfl).1 rfl

end SlidR
